import Mathlib

/-!
Verification development for the axidraw-service job queue and plotter
controller.  The definitions below are a shallow embedding of the Python
source:

* `src/queue/database.py`   — the `Job` row and `JobStatus` enumeration;
* `src/queue/manager.py`    — `JobQueueManager` operations over the job table;
* `src/api/routes/jobs.py`  — the delete/cancel route handlers;
* `src/plotter/controller.py` — `AxiDrawController.plot_svg` / `cancel`;
* `src/queue/worker.py`     — the dispatch loop, as a transition system
  interleaved with the client-facing cancel/delete routes.

Timestamps (`datetime.utcnow()`) are modelled as natural numbers supplied
explicitly at each call; the durable table is a list of rows; the filesystem
holding uploaded files is a list of paths.
-/

namespace Axidraw

/-- `JobStatus` from `src/queue/database.py`. -/
inductive JobStatus where
  | queued
  | running
  | paused
  | completed
  | failed
  | cancelled
  deriving DecidableEq, Repr

/-- Terminal statuses, the list `[COMPLETED, FAILED, CANCELLED]` used in
`update_job_status` and in the cancel route. -/
def JobStatus.isTerminal : JobStatus → Bool
  | .completed => true
  | .failed => true
  | .cancelled => true
  | _ => false

/-- The `jobs` table row from `src/queue/database.py`.  `created_at`,
`started_at`, `completed_at` are abstract timestamps (naturals). -/
structure Job where
  id : String
  filename : String
  filepath : String
  status : JobStatus
  progress : Int
  created_at : Nat
  started_at : Option Nat
  completed_at : Option Nat
  error : Option String
  parameters : Option String
  deriving DecidableEq, Repr

/-- The durable job table: one row per job. -/
abbrev Store := List Job

/-- `JobQueueManager.get_job`: `SELECT * FROM jobs WHERE id = job_id`. -/
def getJob (store : Store) (jobId : String) : Option Job :=
  store.find? (fun j => decide (j.id = jobId))

/-- One step of the minimum-by-`created_at` scan underlying
`get_next_job`'s `ORDER BY created_at ASC LIMIT 1`. -/
def nextAcc (acc : Option Job) (j : Job) : Option Job :=
  match acc with
  | none => some j
  | some b => if j.created_at < b.created_at then some j else acc

/-- `JobQueueManager.get_next_job`: the first row by ascending `created_at`
among rows with `status = QUEUED` (`ORDER BY created_at ASC LIMIT 1`). -/
def get_next_job (store : Store) : Option Job :=
  (store.filter (fun j => decide (j.status = .queued))).foldl nextAcc none

/-- `JobQueueManager.get_queue_position`: 0 if the job is missing or not
queued, else the count of queued rows with `created_at <= job.created_at`. -/
def get_queue_position (store : Store) (jobId : String) : Nat :=
  match getJob store jobId with
  | none => 0
  | some job =>
    if job.status = .queued then
      (store.filter (fun j =>
        decide (j.status = .queued) && decide (j.created_at ≤ job.created_at))).length
    else 0

/-- The row mutation performed by `JobQueueManager.update_job_status` on the
fetched job: set `status`, optionally `progress` and `error`, then stamp
`started_at` on a transition into RUNNING when it is still unset, else stamp
`completed_at` whenever the new status is terminal. -/
def applyUpdate (job : Job) (status : JobStatus) (progress : Option Int)
    (error : Option String) (now : Nat) : Job :=
  let job : Job := { job with status := status }
  let job : Job :=
    match progress with
    | some p => { job with progress := p }
    | none => job
  let job : Job :=
    match error with
    | some e => { job with error := some e }
    | none => job
  if status = .running then
    if job.started_at = none then { job with started_at := some now } else job
  else if status.isTerminal then
    { job with completed_at := some now }
  else job

/-- `JobQueueManager.update_job_status`: returns the table after the commit
together with the refreshed row, or `none` when the id is unknown (the table
is then unchanged). -/
def update_job_status (store : Store) (jobId : String) (status : JobStatus)
    (progress : Option Int) (error : Option String) (now : Nat) :
    Store × Option Job :=
  match getJob store jobId with
  | none => (store, none)
  | some job =>
    let job' := applyUpdate job status progress error now
    (store.map (fun j => if j.id = jobId then job' else j), some job')

/-- `JobQueueManager.delete_job`: `false` when the id is unknown; otherwise
unlink the job's file when it exists (best-effort) and delete the row.
`files` is the set of existing file paths. -/
def delete_job (store : Store) (files : List String) (jobId : String) :
    Store × List String × Bool :=
  match getJob store jobId with
  | none => (store, files, false)
  | some job =>
    (store.filter (fun j => decide (j.id ≠ jobId)),
     files.filter (fun f => decide (f ≠ job.filepath)),
     true)

/-- `JobQueueManager.get_queue_size`: count of queued rows. -/
def get_queue_size (store : Store) : Nat :=
  (store.filter (fun j => decide (j.status = .queued))).length

/-- Typed failures surfaced by the route handlers in
`src/api/routes/jobs.py`, in place of the HTTP status codes
(404 — not found; 400 — invalid state; 500 — internal error). -/
inductive ApiError where
  | notFound
  | invalidState
  | internalError
  deriving DecidableEq, Repr

/-- The `DELETE /jobs/{job_id}` handler: 404 when unknown, 400 when the job
is RUNNING (checked before any mutation), else `JobQueueManager.delete_job`
(500 should it report failure). -/
def delete_job_route (store : Store) (files : List String) (jobId : String) :
    Except ApiError (Store × List String) :=
  match getJob store jobId with
  | none => .error .notFound
  | some job =>
    if job.status = .running then .error .invalidState
    else
      match delete_job store files jobId with
      | (store', files', true) => .ok (store', files')
      | (_, _, false) => .error .internalError

/-- The `POST /jobs/{job_id}/cancel` handler: 404 when unknown, 400 when the
job is already terminal; when RUNNING it first calls `plotter.cancel()`
(its success supplied here as `plotterCancelOk`, 500 on failure); then marks
the job CANCELLED through `update_job_status`. -/
def cancel_job_route (store : Store) (jobId : String)
    (plotterCancelOk : Bool) (now : Nat) : Except ApiError Store :=
  match getJob store jobId with
  | none => .error .notFound
  | some job =>
    if job.status.isTerminal then .error .invalidState
    else if job.status = .running ∧ plotterCancelOk = false then
      .error .internalError
    else .ok (update_job_status store jobId .cancelled none none now).1

/-- `PlotterState` from `src/plotter/controller.py`. -/
inductive PlotterState where
  | idle
  | busy
  | paused
  | error
  | disconnected
  deriving DecidableEq, Repr

/-- The `asyncio.subprocess.Process` handle as the controller observes it:
only its `returncode` (`none` while the process is still running). -/
structure ProcHandle where
  returncode : Option Int
  deriving DecidableEq, Repr

/-- The mutable fields of `AxiDrawController`. -/
structure ControllerState where
  state : PlotterState
  current_job_id : Option String
  jobs_completed : Nat
  current_process : Option ProcHandle
  deriving DecidableEq, Repr

/-- The subprocess-termination primitives invoked by the controller, in the
order they are executed: `terminate()` (SIGTERM), `wait_for(wait(), 5)`
(the bounded grace period), `kill()` (SIGKILL), and an unbounded `wait()`. -/
inductive StopAction where
  | terminate
  | waitUpTo5
  | kill
  | wait
  deriving DecidableEq, Repr

/-- How the plotting subprocess behaves once `plot_svg` launches it:
`exited code` — `communicate()` returned within the timeout with that
return code; `timedOut` — `asyncio.wait_for` raised `TimeoutError`;
`spawnFailure` — an exception inside the `try` block (e.g. the exec
itself failed), caught by the `except Exception` handler. -/
inductive PlotOutcome where
  | exited (code : Int)
  | timedOut
  | spawnFailure
  deriving DecidableEq, Repr

/-- How `plot_svg` leaves the caller: a normal `return True/False`, or the
`RuntimeError("Plotter is not idle ...")` raised before the `try` block. -/
inductive PlotResult where
  | ok (success : Bool)
  | raisedNotIdle
  deriving DecidableEq, Repr

/-- `AxiDrawController.plot_svg`: raises when the state is not IDLE;
otherwise sets BUSY and `current_job_id`, runs the subprocess, and on the
timeout path kills it outright (`kill(); wait()`).  The `finally` block
restores IDLE and clears `current_job_id` and `_current_process` on every
path that reaches the `try`.  The third component is the trace of
subprocess-termination actions executed. -/
def plot_svg (c : ControllerState) (jobId : String) (outcome : PlotOutcome) :
    PlotResult × ControllerState × List StopAction :=
  if c.state ≠ .idle then (.raisedNotIdle, c, [])
  else
    let c1 : ControllerState := { c with state := .busy, current_job_id := some jobId }
    let body : PlotResult × ControllerState × List StopAction :=
      match outcome with
      | .exited code =>
        let c2 : ControllerState := { c1 with current_process := some ⟨some code⟩ }
        if code = 0 then
          (.ok true, { c2 with jobs_completed := c2.jobs_completed + 1 }, [])
        else
          (.ok false, { c2 with state := .error }, [])
      | .timedOut =>
        (.ok false, { c1 with state := .error, current_process := some ⟨some (-9)⟩ },
         [.kill, .wait])
      | .spawnFailure =>
        (.ok false, { c1 with state := .error }, [])
    (body.1,
     { body.2.1 with state := .idle, current_job_id := none, current_process := none },
     body.2.2)

/-- `AxiDrawController.cancel`: returns `False` untouched when there is no
stored process or it has already exited; otherwise `terminate()`, a wait of
up to 5 seconds (`exitsWithinGrace` says whether the process exits in time),
then `kill(); wait()` only if it is still running, after which the state is
reset to IDLE and the job id and handle are cleared. -/
def cancel (c : ControllerState) (exitsWithinGrace : Bool) :
    Bool × ControllerState × List StopAction :=
  match c.current_process with
  | none => (false, c, [])
  | some p =>
    if p.returncode ≠ none then (false, c, [])
    else
      (true,
       { c with state := .idle, current_job_id := none, current_process := none },
       if exitsWithinGrace then [.terminate, .waitUpTo5]
       else [.terminate, .waitUpTo5, .kill, .wait])

/-!
The dispatch system: `JobWorker._work_loop` from `src/queue/worker.py`
interleaved with the client-facing cancel/delete routes and job creation.
The worker's position inside one loop iteration is its program counter.
-/

/-- The dispatch worker's position in its loop: at the top of the loop,
holding the job returned by `get_next_job` (not yet marked RUNNING), or
plotting a job it has marked RUNNING. -/
inductive WorkerPC where
  | wIdle
  | fetched (jobId : String)
  | plotting (jobId : String)
  deriving DecidableEq, Repr

/-- Global system state for the interleaving model: the job table, the
worker's program counter, and whether the plotter is idle. -/
structure SysState where
  store : Store
  wpc : WorkerPC
  plotterIdle : Bool
  deriving Repr

/-- The `POST /jobs/{job_id}/cancel` route acting on the system state: the
store becomes the route's result when it succeeds (unchanged on a 4xx/5xx),
and a successful cancel of a RUNNING job has stopped the plotter, leaving
the device idle. -/
def cancel_job_sys (s : SysState) (jobId : String) (plotterCancelOk : Bool)
    (now : Nat) : SysState :=
  match cancel_job_route s.store jobId plotterCancelOk now with
  | .error _ => s
  | .ok store' =>
    match getJob s.store jobId with
    | some job =>
      if job.status = .running then { s with store := store', plotterIdle := true }
      else { s with store := store' }
    | none => { s with store := store' }

/-- The `DELETE /jobs/{job_id}` route acting on the system state (the
uploaded files play no role in the dispatch invariant, so the filesystem
argument is left empty). -/
def delete_job_sys (s : SysState) (jobId : String) : SysState :=
  match delete_job_route s.store [] jobId with
  | .error _ => s
  | .ok (store', _) => { s with store := store' }

/-- One interleaved step of the system: a client creates a job (fresh id,
QUEUED, per `JobQueueManager.create_job`), the worker advances through its
loop (`_work_loop`: check plotter idle, `get_next_job`, mark RUNNING with
progress 0, the success path's progress-100 callback, write the terminal
status), or a client hits the cancel/delete route. -/
inductive Step : SysState → SysState → Prop where
  | createJob (s : SysState) (j : Job)
      (hfresh : j.id ∉ s.store.map Job.id) (hq : j.status = .queued) :
      Step s { s with store := s.store ++ [j] }
  | workerFetch (s : SysState) (j : Job)
      (hpc : s.wpc = .wIdle) (hidle : s.plotterIdle = true)
      (hnext : get_next_job s.store = some j) :
      Step s { s with wpc := .fetched j.id }
  | workerMark (s : SysState) (jid : String) (now : Nat)
      (hpc : s.wpc = .fetched jid) :
      Step s { s with
        store := (update_job_status s.store jid .running (some 0) none now).1,
        wpc := .plotting jid, plotterIdle := false }
  | workerProgress (s : SysState) (jid : String) (now : Nat)
      (hpc : s.wpc = .plotting jid) :
      Step s { s with
        store := (update_job_status s.store jid .running (some 100) none now).1 }
  | workerFinishOk (s : SysState) (jid : String) (now : Nat)
      (hpc : s.wpc = .plotting jid) :
      Step s { s with
        store := (update_job_status s.store jid .completed (some 100) none now).1,
        wpc := .wIdle, plotterIdle := true }
  | workerFinishFail (s : SysState) (jid : String) (now : Nat)
      (hpc : s.wpc = .plotting jid) :
      Step s { s with
        store := (update_job_status s.store jid .failed none
          (some "Plotting failed") now).1,
        wpc := .wIdle, plotterIdle := true }
  | clientCancel (s : SysState) (jid : String) (ok : Bool) (now : Nat) :
      Step s (cancel_job_sys s jid ok now)
  | clientDelete (s : SysState) (jid : String) :
      Step s (delete_job_sys s jid)

/-- The system starts with an empty table, the worker at the top of its
loop, and the plotter idle. -/
def initState : SysState := { store := [], wpc := .wIdle, plotterIdle := true }

/-- States reachable from `initState` under any interleaving of steps. -/
inductive Reachable : SysState → Prop where
  | init : Reachable initState
  | step {s t : SysState} : Reachable s → Step s t → Reachable t

/-- Number of rows with `status = RUNNING`. -/
def runningCount (store : Store) : Nat :=
  (store.filter (fun j => decide (j.status = .running))).length

/-- Every RUNNING row belongs to the job the worker is currently plotting:
the inductive invariant behind single-job dispatch. -/
def ownsRunning (s : SysState) : Prop :=
  ∀ j ∈ s.store, j.status = .running → s.wpc = .plotting j.id

/-- The inductive system invariant: row ids are pairwise distinct and every
RUNNING row is the worker's current job. -/
def SysInv (s : SysState) : Prop :=
  (s.store.map Job.id).Nodup ∧ ownsRunning s

/-!  Concrete sample states used to evaluate the definitions. -/

/-- A sample row with the given id, creation time and status. -/
def sampleJob (i : String) (t : Nat) (st : JobStatus) : Job :=
  { id := i, filename := i ++ ".svg", filepath := "uploads/" ++ i ++ ".svg",
    status := st, progress := 0, created_at := t, started_at := none,
    completed_at := none, error := none, parameters := none }

/-- A freshly constructed controller (the `__init__` state). -/
def idleController : ControllerState :=
  { state := .idle, current_job_id := none, jobs_completed := 0,
    current_process := none }

/-- A controller mid-plot as another caller would observe it. -/
def busyController : ControllerState :=
  { state := .busy, current_job_id := some "other", jobs_completed := 0,
    current_process := some { returncode := none } }

/-- A controller holding a live (not yet exited) subprocess handle. -/
def activePlotController : ControllerState :=
  { state := .busy, current_job_id := some "j1", jobs_completed := 0,
    current_process := some { returncode := none } }

/-- A controller whose stored handle refers to an already-exited process. -/
def exitedProcController : ControllerState :=
  { state := .idle, current_job_id := none, jobs_completed := 2,
    current_process := some { returncode := some 0 } }

/-- A terminal (COMPLETED) row with its `completed_at` already stamped. -/
def completedJob : Job :=
  { sampleJob "a" 0 .completed with started_at := some 1, completed_at := some 3 }

/-!  Helper lemmas about the embedded operations. -/

theorem getJob_mem {store : Store} {jobId : String} {job : Job}
    (h : getJob store jobId = some job) : job ∈ store :=
  List.mem_of_find?_eq_some h

theorem getJob_id {store : Store} {jobId : String} {job : Job}
    (h : getJob store jobId = some job) : job.id = jobId := by
  have hp := List.find?_some h
  simpa using hp

theorem getJob_none {store : Store} {jobId : String}
    (h : getJob store jobId = none) : ∀ j ∈ store, j.id ≠ jobId := by
  intro j hj
  have := List.find?_eq_none.mp h j hj
  simpa using this

theorem applyUpdate_id (job : Job) (st : JobStatus) (p : Option Int)
    (e : Option String) (now : Nat) : (applyUpdate job st p e now).id = job.id := by
  unfold applyUpdate
  cases p <;> cases e <;> dsimp only <;> split <;> (try split) <;> rfl

theorem applyUpdate_status (job : Job) (st : JobStatus) (p : Option Int)
    (e : Option String) (now : Nat) : (applyUpdate job st p e now).status = st := by
  unfold applyUpdate
  cases p <;> cases e <;> dsimp only <;> split <;> (try split) <;> rfl

theorem applyUpdate_started_at (job : Job) (st : JobStatus) (p : Option Int)
    (e : Option String) (now : Nat) :
    (applyUpdate job st p e now).started_at =
      if st = .running ∧ job.started_at = none then some now else job.started_at := by
  unfold applyUpdate
  rcases Decidable.em (st = .running) with hr | hr
  · subst hr
    rcases Decidable.em (job.started_at = none) with hn | hn <;>
      cases p <;> cases e <;> simp [hn]
  · have hterm : ¬ (st = .running ∧ job.started_at = none) := fun h => hr h.1
    cases p <;> cases e <;> simp [hr, hterm] <;> split <;> rfl

theorem applyUpdate_completed_at (job : Job) (st : JobStatus) (p : Option Int)
    (e : Option String) (now : Nat) :
    (applyUpdate job st p e now).completed_at =
      if st.isTerminal then some now else job.completed_at := by
  unfold applyUpdate
  cases st <;> cases p <;> cases e <;> simp [JobStatus.isTerminal] <;> split <;> rfl

theorem update_job_status_found {store : Store} {jobId : String} {job : Job}
    (st : JobStatus) (p : Option Int) (e : Option String) (now : Nat)
    (hget : getJob store jobId = some job) :
    update_job_status store jobId st p e now =
      (store.map (fun j => if j.id = jobId then applyUpdate job st p e now else j),
       some (applyUpdate job st p e now)) := by
  unfold update_job_status
  rw [hget]

theorem update_ids (store : Store) (jobId : String) (st : JobStatus)
    (p : Option Int) (e : Option String) (now : Nat) :
    (update_job_status store jobId st p e now).1.map Job.id = store.map Job.id := by
  cases hget : getJob store jobId with
  | none => unfold update_job_status; rw [hget]
  | some job =>
    rw [update_job_status_found st p e now hget]
    rw [List.map_map]
    apply List.map_congr_left
    intro a _
    by_cases h : a.id = jobId
    · simp [h, applyUpdate_id, getJob_id hget]
    · simp [h]

theorem running_in_update {store : Store} {jobId : String} {st : JobStatus}
    {p : Option Int} {e : Option String} {now : Nat} {j' : Job}
    (hmem : j' ∈ (update_job_status store jobId st p e now).1)
    (hrun : j'.status = .running) :
    (j'.id = jobId ∧ st = .running) ∨
    (j' ∈ store ∧ j'.status = .running ∧ j'.id ≠ jobId) := by
  cases hget : getJob store jobId with
  | none =>
    unfold update_job_status at hmem
    rw [hget] at hmem
    exact Or.inr ⟨hmem, hrun, getJob_none hget j' hmem⟩
  | some job =>
    rw [update_job_status_found st p e now hget] at hmem
    obtain ⟨a, ha, hfa⟩ := List.mem_map.mp hmem
    by_cases h : a.id = jobId
    · rw [if_pos h] at hfa
      subst hfa
      refine Or.inl ⟨?_, ?_⟩
      · rw [applyUpdate_id, getJob_id hget]
      · rw [← applyUpdate_status job st p e now, hrun]
    · rw [if_neg h] at hfa
      subst hfa
      exact Or.inr ⟨ha, hrun, h⟩

theorem nextAcc_ne_none (acc : Option Job) (j : Job) : nextAcc acc j ≠ none := by
  cases acc with
  | none => simp [nextAcc]
  | some b =>
    simp only [nextAcc]
    split <;> simp

theorem foldl_nextAcc_eq_none {l : List Job} {acc : Option Job}
    (h : l.foldl nextAcc acc = none) : l = [] ∧ acc = none := by
  induction l generalizing acc with
  | nil => exact ⟨rfl, h⟩
  | cons a t ih =>
    rw [List.foldl_cons] at h
    obtain ⟨_, ha⟩ := ih h
    exact absurd ha (nextAcc_ne_none acc a)

theorem foldl_nextAcc_mem {l : List Job} {acc : Option Job} {j : Job}
    (h : l.foldl nextAcc acc = some j) : j ∈ l ∨ acc = some j := by
  induction l generalizing acc with
  | nil => exact Or.inr h
  | cons a t ih =>
    rw [List.foldl_cons] at h
    rcases ih h with hm | he
    · exact Or.inl (List.mem_cons_of_mem a hm)
    · cases acc with
      | none =>
        simp only [nextAcc] at he
        cases he
        exact Or.inl (List.mem_cons_self _ _)
      | some b =>
        simp only [nextAcc] at he
        split at he
        · cases he
          exact Or.inl (List.mem_cons_self _ _)
        · exact Or.inr he

theorem foldl_nextAcc_min {l : List Job} {acc : Option Job} {j : Job}
    (h : l.foldl nextAcc acc = some j) :
    (∀ x ∈ l, j.created_at ≤ x.created_at) ∧
    (∀ b, acc = some b → j.created_at ≤ b.created_at) := by
  induction l generalizing acc with
  | nil =>
    refine ⟨by simp, ?_⟩
    intro b hb
    rw [List.foldl_nil] at h
    rw [hb] at h
    cases h
    exact Nat.le_refl _
  | cons a t ih =>
    rw [List.foldl_cons] at h
    obtain ⟨h1, h2⟩ := ih h
    constructor
    · intro x hx
      rcases List.mem_cons.mp hx with rfl | hxt
      · cases acc with
        | none => exact h2 x rfl
        | some b =>
          by_cases hab : x.created_at < b.created_at
          · exact h2 x (by simp [nextAcc, hab])
          · have hj : j.created_at ≤ b.created_at := h2 b (by simp [nextAcc, hab])
            exact Nat.le_trans hj (Nat.le_of_not_lt hab)
      · exact h1 x hxt
    · intro b hb
      cases hb
      by_cases hab : a.created_at < b.created_at
      · have := h2 a (by simp [nextAcc, hab])
        exact Nat.le_trans this (Nat.le_of_lt hab)
      · exact h2 b (by simp [nextAcc, hab])

theorem length_le_one_of_const_id {l : List Job} {c : String}
    (hnd : (l.map Job.id).Nodup) (hall : ∀ j ∈ l, j.id = c) : l.length ≤ 1 := by
  match l with
  | [] => simp
  | [a] => simp
  | a :: b :: t =>
    exfalso
    have ha : a.id = c := hall a (by simp)
    have hb : b.id = c := hall b (by simp)
    rw [List.map_cons, List.map_cons, List.nodup_cons] at hnd
    exact hnd.1 (by rw [ha, hb]; exact List.mem_cons_self _ _)

theorem cancel_route_ok {store : Store} {jobId : String} {b : Bool} {now : Nat}
    {store' : Store} (h : cancel_job_route store jobId b now = .ok store') :
    store' = (update_job_status store jobId .cancelled none none now).1 := by
  unfold cancel_job_route at h
  split at h
  · cases h
  · split at h
    · cases h
    · split at h
      · cases h
      · cases h; rfl

theorem delete_job_found {store : Store} {files : List String} {jobId : String}
    {job : Job} (hget : getJob store jobId = some job) :
    delete_job store files jobId =
      (store.filter (fun j => decide (j.id ≠ jobId)),
       files.filter (fun f => decide (f ≠ job.filepath)), true) := by
  unfold delete_job
  rw [hget]

theorem delete_route_ok {store : Store} {files : List String} {jobId : String}
    {store' : Store} {files' : List String}
    (h : delete_job_route store files jobId = .ok (store', files')) :
    store' = store.filter (fun j => decide (j.id ≠ jobId)) := by
  unfold delete_job_route at h
  cases hget : getJob store jobId with
  | none => rw [hget] at h; cases h
  | some job =>
    rw [hget] at h
    dsimp only at h
    split at h
    · cases h
    · rw [delete_job_found hget] at h
      cases h
      rfl

theorem cancel_sys_cases (s : SysState) (jid : String) (ok : Bool) (now : Nat) :
    ((cancel_job_sys s jid ok now).store = s.store ∨
     (cancel_job_sys s jid ok now).store =
       (update_job_status s.store jid .cancelled none none now).1) ∧
    (cancel_job_sys s jid ok now).wpc = s.wpc := by
  unfold cancel_job_sys
  cases hroute : cancel_job_route s.store jid ok now with
  | error e => exact ⟨Or.inl rfl, rfl⟩
  | ok store' =>
    have hs := cancel_route_ok hroute
    cases getJob s.store jid with
    | none => exact ⟨Or.inr hs, rfl⟩
    | some job =>
      dsimp only
      split
      · exact ⟨Or.inr hs, rfl⟩
      · exact ⟨Or.inr hs, rfl⟩

theorem delete_sys_cases (s : SysState) (jid : String) :
    ((delete_job_sys s jid).store = s.store ∨
     (delete_job_sys s jid).store = s.store.filter (fun j => decide (j.id ≠ jid))) ∧
    (delete_job_sys s jid).wpc = s.wpc := by
  unfold delete_job_sys
  cases hroute : delete_job_route s.store [] jid with
  | error e => exact ⟨Or.inl rfl, rfl⟩
  | ok pr =>
    obtain ⟨store', files'⟩ := pr
    exact ⟨Or.inr (delete_route_ok hroute), rfl⟩

theorem inv_step {s t : SysState} (hs : SysInv s) (hstep : Step s t) : SysInv t := by
  obtain ⟨hnd, hown⟩ := hs
  cases hstep with
  | createJob j hfresh hq =>
    constructor
    · show ((s.store ++ [j]).map Job.id).Nodup
      rw [List.map_append, List.nodup_append]
      refine ⟨hnd, List.nodup_singleton _, ?_⟩
      intro a ha hb
      rw [List.map_singleton, List.mem_singleton] at hb
      exact hfresh (hb ▸ ha)
    · intro j' hj' hrun
      rcases List.mem_append.mp hj' with h | h
      · exact hown j' h hrun
      · rw [List.mem_singleton] at h
        subst h
        rw [hq] at hrun
        cases hrun
  | workerFetch j hpc hidle hnext =>
    refine ⟨hnd, ?_⟩
    intro j' hj' hrun
    have hw := hown j' hj' hrun
    rw [hpc] at hw
    cases hw
  | workerMark jid now hpc =>
    constructor
    · show ((update_job_status s.store jid .running (some 0) none now).1.map Job.id).Nodup
      rw [update_ids]
      exact hnd
    · intro j' hj' hrun
      rcases running_in_update hj' hrun with ⟨hid, _⟩ | ⟨hmem, hr, _⟩
      · show WorkerPC.plotting jid = .plotting j'.id
        rw [hid]
      · have hw := hown j' hmem hr
        rw [hpc] at hw
        cases hw
  | workerProgress jid now hpc =>
    constructor
    · show ((update_job_status s.store jid .running (some 100) none now).1.map Job.id).Nodup
      rw [update_ids]
      exact hnd
    · intro j' hj' hrun
      rcases running_in_update hj' hrun with ⟨hid, _⟩ | ⟨hmem, hr, _⟩
      · show s.wpc = .plotting j'.id
        rw [hpc, hid]
      · exact hown j' hmem hr
  | workerFinishOk jid now hpc =>
    constructor
    · show ((update_job_status s.store jid .completed (some 100) none
        now).1.map Job.id).Nodup
      rw [update_ids]
      exact hnd
    · intro j' hj' hrun
      rcases running_in_update hj' hrun with ⟨_, hst⟩ | ⟨hmem, hr, hne⟩
      · cases hst
      · have hw := hown j' hmem hr
        rw [hpc] at hw
        injection hw with h
        exact absurd h.symm hne
  | workerFinishFail jid now hpc =>
    constructor
    · show ((update_job_status s.store jid .failed none (some "Plotting failed")
        now).1.map Job.id).Nodup
      rw [update_ids]
      exact hnd
    · intro j' hj' hrun
      rcases running_in_update hj' hrun with ⟨_, hst⟩ | ⟨hmem, hr, hne⟩
      · cases hst
      · have hw := hown j' hmem hr
        rw [hpc] at hw
        injection hw with h
        exact absurd h.symm hne
  | clientCancel jid ok now =>
    obtain ⟨hst, hw⟩ := cancel_sys_cases s jid ok now
    constructor
    · rcases hst with h | h
      · show ((cancel_job_sys s jid ok now).store.map Job.id).Nodup
        rw [h]
        exact hnd
      · show ((cancel_job_sys s jid ok now).store.map Job.id).Nodup
        rw [h, update_ids]
        exact hnd
    · intro j' hj' hrun
      show (cancel_job_sys s jid ok now).wpc = .plotting j'.id
      rw [hw]
      rcases hst with h | h
      · rw [h] at hj'
        exact hown j' hj' hrun
      · rw [h] at hj'
        rcases running_in_update hj' hrun with ⟨_, hstat⟩ | ⟨hmem, hr, _⟩
        · cases hstat
        · exact hown j' hmem hr
  | clientDelete jid =>
    obtain ⟨hst, hw⟩ := delete_sys_cases s jid
    constructor
    · rcases hst with h | h
      · show ((delete_job_sys s jid).store.map Job.id).Nodup
        rw [h]
        exact hnd
      · show ((delete_job_sys s jid).store.map Job.id).Nodup
        rw [h]
        exact ((List.filter_sublist s.store).map Job.id).nodup hnd
    · intro j' hj' hrun
      show (delete_job_sys s jid).wpc = .plotting j'.id
      rw [hw]
      rcases hst with h | h
      · rw [h] at hj'
        exact hown j' hj' hrun
      · rw [h] at hj'
        exact hown j' (List.mem_filter.mp hj').1 hrun

theorem inv_init : SysInv initState := by
  constructor
  · show (([] : Store).map Job.id).Nodup
    simp
  · intro j hj
    exact absurd hj (List.not_mem_nil j)

theorem inv_reachable {s : SysState} (h : Reachable s) : SysInv s := by
  induction h with
  | init => exact inv_init
  | step _ hstep ih => exact inv_step ih hstep

/-!  Claim theorems. -/

/-- C1: for every call to `plot_svg` that proceeds past the idle guard, on
every exit path — success (exit code 0), failure (non-zero exit), timeout,
or an exception caught inside the body — the `finally` block leaves the
device session IDLE with `current_job_id` cleared when the call returns. -/
theorem plot_svg_restores_idle (c : ControllerState) (jobId : String)
    (outcome : PlotOutcome) (h : c.state = .idle) :
    ((plot_svg c jobId outcome).2.1).state = .idle ∧
    ((plot_svg c jobId outcome).2.1).current_job_id = none := by
  unfold plot_svg
  rw [h]
  cases outcome with
  | exited code => by_cases hc : code = 0 <;> simp [hc]
  | timedOut => simp
  | spawnFailure => simp

/-- C1 witness: a concrete timeout exit from a fresh controller. -/
theorem plot_svg_restores_idle_witness :
    ((plot_svg idleController "j1" .timedOut).2.1).state = .idle ∧
    ((plot_svg idleController "j1" .timedOut).2.1).current_job_id = none :=
  plot_svg_restores_idle idleController "j1" .timedOut rfl

/-- C3 counterexample: the termination sequence of `plot_svg`'s timeout
path (an immediate `kill(); wait()`) differs from the two-phase sequence of
`cancel` (`terminate()`, a bounded 5-second wait, `kill()` only if still
running) in both the graceful and the forced case, so the two are not
identical as the claim states. -/
theorem timeout_stop_differs_from_cancel_stop :
    (plot_svg idleController "j1" .timedOut).2.2 = [.kill, .wait] ∧
    (cancel activePlotController true).2.2 = [.terminate, .waitUpTo5] ∧
    (cancel activePlotController false).2.2 =
      [.terminate, .waitUpTo5, .kill, .wait] ∧
    (plot_svg idleController "j1" .timedOut).2.2 ≠
      (cancel activePlotController true).2.2 ∧
    (plot_svg idleController "j1" .timedOut).2.2 ≠
      (cancel activePlotController false).2.2 := by
  decide

/-- C3 (amended): when the configured timeout expires, `plot_svg` kills the
subprocess outright (`kill()` then `wait()`), without the graceful
terminate-and-grace-period phase; `cancel` performs the two-phase stop, and
the two termination sequences are never equal. -/
theorem timeout_stop_is_immediate_kill (c c' : ControllerState)
    (jobId : String) (b : Bool) (p : ProcHandle) (hidle : c.state = .idle)
    (hproc : c'.current_process = some p) (hlive : p.returncode = none) :
    (plot_svg c jobId .timedOut).2.2 = [.kill, .wait] ∧
    (cancel c' b).2.2 =
      .terminate :: .waitUpTo5 :: (if b then [] else [.kill, .wait]) ∧
    (plot_svg c jobId .timedOut).2.2 ≠ (cancel c' b).2.2 := by
  have h1 : (plot_svg c jobId .timedOut).2.2 = [.kill, .wait] := by
    unfold plot_svg
    rw [hidle]
    simp
  have h2 : (cancel c' b).2.2 =
      .terminate :: .waitUpTo5 :: (if b then [] else [.kill, .wait]) := by
    unfold cancel
    rw [hproc]
    simp [hlive]
    cases b <;> simp
  refine ⟨h1, h2, ?_⟩
  rw [h1, h2]
  cases b <;> simp

/-- C3 (amended) witness: concrete controllers on both sides. -/
theorem timeout_stop_is_immediate_kill_witness :
    (plot_svg idleController "j1" .timedOut).2.2 = [.kill, .wait] ∧
    (cancel activePlotController false).2.2 =
      .terminate :: .waitUpTo5 :: (if false then [] else [.kill, .wait]) ∧
    (plot_svg idleController "j1" .timedOut).2.2 ≠
      (cancel activePlotController false).2.2 :=
  timeout_stop_is_immediate_kill idleController activePlotController "j1"
    false { returncode := none } rfl rfl rfl

/-- C9 counterexample: with the device busy, `plot_svg` raises
`RuntimeError` — modelled as the `raisedNotIdle` result, distinct from
every normal `return` value — instead of returning a typed DeviceBusy
failure to its caller. -/
theorem plot_svg_busy_raises :
    plot_svg busyController "j2" (.exited 0) =
      (.raisedNotIdle, busyController, []) ∧
    PlotResult.raisedNotIdle ≠ PlotResult.ok true ∧
    PlotResult.raisedNotIdle ≠ PlotResult.ok false := by
  decide

/-- C9 (amended): whenever the device session is not IDLE, `plot_svg` fails
immediately — but by raising `RuntimeError` (propagated to the caller; the
dispatch worker's catch-all absorbs it), not by returning a typed result —
and it mutates nothing: the session is handed back exactly as it was, and
the job store is never touched on this path. -/
theorem plot_svg_busy_no_mutation (c : ControllerState) (jobId : String)
    (outcome : PlotOutcome) (h : c.state ≠ .idle) :
    plot_svg c jobId outcome = (.raisedNotIdle, c, []) := by
  unfold plot_svg
  simp [h]

/-- C9 (amended) witness: the busy controller is returned untouched. -/
theorem plot_svg_busy_no_mutation_witness :
    plot_svg busyController "j2" (.exited 0) =
      (.raisedNotIdle, busyController, []) :=
  plot_svg_busy_no_mutation busyController "j2" (.exited 0) (by decide)

/-- C10: `plot_svg` clears the stored subprocess handle on every return
path, and a `cancel` issued while no plot is in flight — the handle is
absent, or the recorded process has already exited — returns `False` and
leaves the whole controller state (device state, current job id, completed
counter) unchanged, executing no termination action. -/
theorem handle_cleared_and_cancel_noop (c c' : ControllerState)
    (jobId : String) (outcome : PlotOutcome) (b : Bool)
    (hidle : c.state = .idle)
    (hinactive : c'.current_process = none ∨
      ∃ p, c'.current_process = some p ∧ p.returncode ≠ none) :
    ((plot_svg c jobId outcome).2.1).current_process = none ∧
    cancel c' b = (false, c', []) := by
  constructor
  · unfold plot_svg
    rw [hidle]
    cases outcome with
    | exited code => by_cases hc : code = 0 <;> simp [hc]
    | timedOut => simp
    | spawnFailure => simp
  · unfold cancel
    rcases hinactive with hn | ⟨p, hp, hrc⟩
    · rw [hn]
    · rw [hp]
      simp [hrc]

/-- C10 witness: a successful plot clears the handle, and cancelling with
an already-exited stored process is a no-op failure. -/
theorem handle_cleared_and_cancel_noop_witness :
    ((plot_svg idleController "j1" (.exited 0)).2.1).current_process = none ∧
    cancel exitedProcController true = (false, exitedProcController, []) :=
  handle_cleared_and_cancel_noop idleController exitedProcController "j1"
    (.exited 0) true rfl (Or.inr ⟨{ returncode := some 0 }, rfl, by decide⟩)

/-- Looking up a freshly appended row whose id occurs nowhere else. -/
theorem getJob_append_of_not_mem {store : Store} {j : Job}
    (h : ∀ j' ∈ store, j'.id ≠ j.id) : getJob (store ++ [j]) j.id = some j := by
  induction store with
  | nil => simp [getJob]
  | cons a t ih =>
    have ha : a.id ≠ j.id := h a (List.mem_cons_self _ _)
    have ht : ∀ j' ∈ t, j'.id ≠ j.id := fun j' hj' => h j' (List.mem_cons_of_mem a hj')
    unfold getJob at ih ⊢
    rw [List.cons_append, List.find?_cons_of_neg _ (by simp [ha])]
    exact ih ht

/-- C4 counterexample: a job marked COMPLETED at time 10 has
`completed_at = 10`; a further `update_job_status` into FAILED at time 20
overwrites it to 20, so `completed_at` is not written exactly once. -/
theorem completed_at_overwritten :
    ((update_job_status [sampleJob "a" 0 .running] "a" .completed (some 100)
        none 10).2.map Job.completed_at) = some (some 10) ∧
    ((update_job_status
        (update_job_status [sampleJob "a" 0 .running] "a" .completed (some 100)
          none 10).1
        "a" .failed none (some "boom") 20).2.map Job.completed_at) =
      some (some 20) := by
  decide

/-- C4 (amended): `started_at` is stamped exactly once — on the first
transition into RUNNING — and is never overwritten afterwards; but
`completed_at` is stamped anew on every transition into a terminal status
(overwriting any earlier value) and left alone by non-terminal ones. -/
theorem update_status_timestamps (store : Store) (jobId : String)
    (st : JobStatus) (p : Option Int) (e : Option String) (now : Nat)
    (job job' : Job) (hget : getJob store jobId = some job)
    (hres : (update_job_status store jobId st p e now).2 = some job') :
    (st = .running → job.started_at = none → job'.started_at = some now) ∧
    (∀ t, job.started_at = some t → job'.started_at = some t) ∧
    (st.isTerminal = true → job'.completed_at = some now) ∧
    (st.isTerminal = false → job'.completed_at = job.completed_at) := by
  rw [update_job_status_found st p e now hget] at hres
  cases hres
  refine ⟨?_, ?_, ?_, ?_⟩
  · intro h1 h2
    rw [applyUpdate_started_at]
    simp [h1, h2]
  · intro t ht
    rw [applyUpdate_started_at]
    simp [ht]
  · intro h
    rw [applyUpdate_completed_at]
    simp [h]
  · intro h
    rw [applyUpdate_completed_at]
    simp [h]

/-- C4 (amended) witness: first transition into RUNNING stamps
`started_at` with the current time. -/
theorem update_status_timestamps_witness :
    (applyUpdate (sampleJob "b" 0 .queued) .running (some 0) none 5).started_at
      = some 5 :=
  (update_status_timestamps [sampleJob "b" 0 .queued] "b" .running (some 0)
    none 5 (sampleJob "b" 0 .queued) _ rfl rfl).1 rfl rfl

/-- C5 counterexample: `update_job_status` happily moves a COMPLETED job to
RUNNING — it succeeds, mutates the record, and raises no InvalidState. -/
theorem terminal_transition_not_blocked :
    ((update_job_status [completedJob] "a" .running (some 0) none 7).2.map
      Job.status) = some JobStatus.running ∧
    (update_job_status [completedJob] "a" .running (some 0) none 7).1 ≠
      [completedJob] := by
  decide

/-- C5 (amended): `update_job_status` enforces no terminal-state guard at
all — it applies any requested transition out of a terminal status; the
only terminal-state protection lives in the cancel route, which rejects
cancelling a COMPLETED/FAILED/CANCELLED job with `invalidState` (and, as it
errors before any write, leaves the store unchanged). -/
theorem terminal_guard_only_in_cancel_route (store : Store) (jobId : String)
    (job : Job) (st : JobStatus) (p : Option Int) (e : Option String)
    (now : Nat) (b : Bool) (hget : getJob store jobId = some job)
    (hterm : job.status.isTerminal = true) :
    ((update_job_status store jobId st p e now).2.map Job.status = some st) ∧
    cancel_job_route store jobId b now = .error .invalidState := by
  constructor
  · rw [update_job_status_found st p e now hget]
    simp [applyUpdate_status]
  · unfold cancel_job_route
    rw [hget]
    simp [hterm]

/-- C5 (amended) witness: concrete COMPLETED job. -/
theorem terminal_guard_only_in_cancel_route_witness :
    ((update_job_status [completedJob] "a" .running (some 0) none 7).2.map
      Job.status = some JobStatus.running) ∧
    cancel_job_route [completedJob] "a" true 7 = .error .invalidState :=
  terminal_guard_only_in_cancel_route [completedJob] "a" completedJob .running
    (some 0) none 7 true rfl rfl

/-- C6: for an existing job, the delete route fails with `invalidState`
when the job is RUNNING — the guard runs before any mutation, so the store
and the filesystem are untouched — and for any non-RUNNING job it removes
the row and, best-effort, the backing input file. -/
theorem delete_job_spec (store : Store) (files : List String) (jobId : String)
    (job : Job) (hget : getJob store jobId = some job) :
    (job.status = .running →
      delete_job_route store files jobId = .error .invalidState) ∧
    (job.status ≠ .running →
      delete_job_route store files jobId =
        .ok (store.filter (fun j => decide (j.id ≠ jobId)),
             files.filter (fun f => decide (f ≠ job.filepath)))) := by
  unfold delete_job_route
  rw [hget]
  dsimp only
  constructor
  · intro h
    simp [h]
  · intro h
    rw [if_neg h, delete_job_found hget]

/-- C6 witness: deleting a RUNNING job is rejected with `invalidState`. -/
theorem delete_job_spec_witness :
    delete_job_route [sampleJob "r" 0 .running] ["uploads/r.svg"] "r" =
      .error .invalidState :=
  (delete_job_spec [sampleJob "r" 0 .running] ["uploads/r.svg"] "r"
    (sampleJob "r" 0 .running) rfl).1 rfl

/-- C7: `get_queue_position` returns, for an existing QUEUED job, the count
of QUEUED rows with `created_at` at or before the job's own `created_at`
(1-indexed, counting the job itself — so a fresh job appended to a table
with no other QUEUED row has position 1), and 0 when the job is missing or
not QUEUED. -/
theorem queue_position_spec (store : Store) (jobId : String) :
    (∀ job, getJob store jobId = some job →
      get_queue_position store jobId =
        if job.status = .queued then
          (store.filter (fun j => decide (j.status = .queued) &&
            decide (j.created_at ≤ job.created_at))).length
        else 0) ∧
    (getJob store jobId = none → get_queue_position store jobId = 0) ∧
    (∀ j : Job, j.status = .queued → (∀ j' ∈ store, j'.status ≠ .queued) →
      (∀ j' ∈ store, j'.id ≠ j.id) →
      get_queue_position (store ++ [j]) j.id = 1) := by
  refine ⟨?_, ?_, ?_⟩
  · intro job hget
    unfold get_queue_position
    rw [hget]
  · intro hget
    unfold get_queue_position
    rw [hget]
  · intro j hjq hnoq hfresh
    have hget : getJob (store ++ [j]) j.id = some j :=
      getJob_append_of_not_mem hfresh
    unfold get_queue_position
    rw [hget]
    dsimp only
    rw [if_pos hjq, List.filter_append]
    have h1 : store.filter (fun x => decide (x.status = .queued) &&
        decide (x.created_at ≤ j.created_at)) = [] := by
      refine List.filter_eq_nil_iff.mpr ?_
      intro a ha
      simp only [Bool.and_eq_true, decide_eq_true_eq, not_and]
      intro hq
      exact absurd hq (hnoq a ha)
    rw [h1]
    simp [hjq]

/-- C7 witness: a fresh job appended to the empty table has position 1. -/
theorem queue_position_spec_witness :
    get_queue_position ([] ++ [sampleJob "w" 4 .queued])
      (sampleJob "w" 4 .queued).id = 1 :=
  (queue_position_spec [] (sampleJob "w" 4 .queued).id).2.2
    (sampleJob "w" 4 .queued) rfl
    (fun j' hj' => absurd hj' (List.not_mem_nil j'))
    (fun j' hj' => absurd hj' (List.not_mem_nil j'))

/-- C8: `get_next_job` returns `none` exactly when no row is QUEUED, and
otherwise a QUEUED row of the table whose `created_at` is least among all
QUEUED rows. -/
theorem next_job_spec (store : Store) :
    (get_next_job store = none ↔ ∀ j ∈ store, j.status ≠ .queued) ∧
    (∀ j, get_next_job store = some j →
      j ∈ store ∧ j.status = .queued ∧
      ∀ j' ∈ store, j'.status = .queued → j.created_at ≤ j'.created_at) := by
  constructor
  · constructor
    · intro h j hj hq
      unfold get_next_job at h
      have hmem : j ∈ store.filter (fun x => decide (x.status = .queued)) :=
        List.mem_filter.mpr ⟨hj, by simp [hq]⟩
      rw [(foldl_nextAcc_eq_none h).1] at hmem
      exact absurd hmem (List.not_mem_nil j)
    · intro h
      unfold get_next_job
      have hnil : store.filter (fun x => decide (x.status = .queued)) = [] := by
        refine List.filter_eq_nil_iff.mpr ?_
        intro a ha
        simp only [decide_eq_true_eq]
        exact h a ha
      rw [hnil]
      rfl
  · intro j hj
    unfold get_next_job at hj
    have hmem : j ∈ store.filter (fun x => decide (x.status = .queued)) := by
      rcases foldl_nextAcc_mem hj with h | h
      · exact h
      · cases h
    have hjf := List.mem_filter.mp hmem
    refine ⟨hjf.1, by simpa using hjf.2, ?_⟩
    intro x hx hq
    have hxf : x ∈ store.filter (fun y => decide (y.status = .queued)) :=
      List.mem_filter.mpr ⟨hx, by simp [hq]⟩
    exact (foldl_nextAcc_min hj).1 x hxf

/-- C8 witness: a table with no QUEUED row yields `none`. -/
theorem next_job_spec_witness :
    get_next_job [sampleJob "x" 5 .running] = none :=
  (next_job_spec [sampleJob "x" 5 .running]).1.mpr (by decide)

/-- C2: in every reachable state, under every interleaving of the dispatch
worker's loop steps with client create/cancel/delete requests, at most one
row of the job table has status RUNNING. -/
theorem at_most_one_running (s : SysState) (h : Reachable s) :
    runningCount s.store ≤ 1 := by
  obtain ⟨hnd, hown⟩ := inv_reachable h
  unfold runningCount
  cases hw : s.wpc with
  | wIdle =>
    have hnil : s.store.filter (fun j => decide (j.status = .running)) = [] := by
      refine List.filter_eq_nil_iff.mpr ?_
      intro j hj
      simp only [decide_eq_true_eq]
      intro hr
      have hc := hown j hj hr
      rw [hw] at hc
      cases hc
    rw [hnil]
    simp
  | fetched jid =>
    have hnil : s.store.filter (fun j => decide (j.status = .running)) = [] := by
      refine List.filter_eq_nil_iff.mpr ?_
      intro j hj
      simp only [decide_eq_true_eq]
      intro hr
      have hc := hown j hj hr
      rw [hw] at hc
      cases hc
    rw [hnil]
    simp
  | plotting jid =>
    apply length_le_one_of_const_id
      (((List.filter_sublist s.store).map Job.id).nodup hnd)
    intro j hjf
    have hm := List.mem_filter.mp hjf
    have hr : j.status = .running := by simpa using hm.2
    have hc := hown j hm.1 hr
    rw [hw] at hc
    injection hc with hh
    exact hh.symm

/-- C2 witness: the reachable state create → fetch → mark, holding exactly
one RUNNING job. -/
theorem at_most_one_running_witness :
    runningCount (update_job_status [sampleJob "a" 0 .queued] "a" .running
      (some 0) none 3).1 ≤ 1 :=
  at_most_one_running _
    (Reachable.step
      (Reachable.step
        (Reachable.step Reachable.init
          (Step.createJob initState (sampleJob "a" 0 .queued) (by simp [initState]) rfl))
        (Step.workerFetch _ (sampleJob "a" 0 .queued) rfl rfl rfl))
      (Step.workerMark _ "a" 3 rfl))

end Axidraw
